import Mathlib

/-!
# Verification of the GREPODEL_AUTO review-and-apply workflow

Shallow embedding of `src/github.py`: paginated repository listing
(`get_repositories`), sheet serialization (`write_sheet`), sheet parsing
(`load_deletion_list`), and the confirmation-gated deletion loop
(`delete_repositories`), together with the `export` and `apply` branches of
`main`.

External effects are made explicit:
* the paginated listing server is the sequence of HTTP responses received
  along the chain of "next" links;
* the deletion endpoint is a function from `(owner, name)` to one HTTP
  response;
* the sheet file is `Option Sheet` (`none` = the path does not exist);
* the single line of operator input at the confirmation prompt is a `String`
  argument;
* a run's observable outcome is a value recording what was written, which
  network calls were issued, and the process exit code.
-/

set_option autoImplicit false

namespace Grepodel

/-- Python `str.strip()`: drop leading and trailing whitespace.  (Modelled on
the ASCII whitespace characters; the program only ever meets spaces and
tabs.) -/
def pyStrip (s : String) : String :=
  ⟨((s.data.dropWhile Char.isWhitespace).reverse.dropWhile Char.isWhitespace).reverse⟩

/-- Python `str.lower()` (ASCII scope): lower-case every character. -/
def pyLower (s : String) : String :=
  ⟨s.data.map Char.toLower⟩

/-- Python `c in s` for a one-character needle, as in `"/" in full_name`. -/
def pyContains (s : String) (c : Char) : Bool :=
  s.data.contains c

/-- Python `s.split("/", 1)`: the part before the first `/` and everything
after it; when no `/` occurs the second part is empty (the program only
splits names already checked to contain `/`). -/
def pySplit1 (s : String) : String × String :=
  (⟨s.data.takeWhile (fun c => c ≠ '/')⟩,
   ⟨(s.data.dropWhile (fun c => c ≠ '/')).tail⟩)

/-- A repository record as returned by the listing API; `get_repositories`
only passes elements through, `write_sheet` reads `repo["full_name"]` and
`repo.get("private")`. -/
structure Repo where
  full_name : String
  priv : Bool
  deriving Repr, DecidableEq

/-- One HTTP response in the pagination chain of `get_repositories`:
its status code, the JSON array of repositories in the body, and whether the
`links` of the response carry a `next` URL. -/
structure PageResponse where
  status : Nat
  data : List Repo
  hasNext : Bool
  deriving Repr, DecidableEq

/-- `get_repositories` (github.py:10-25): follow the chain of `next` links,
accumulating each page's `data` in order.  A non-200 status on any page
returns `None` (here `none`); a page without a `next` link ends the loop and
the accumulated list is returned.  The argument is the sequence of responses
the server produces along the link chain (the chain is strictly sequential:
each URL comes from the previous response).  The `[]` case is never reached
on a well-formed chain, whose last response has `hasNext = false`. -/
def get_repositories : List PageResponse → Option (List Repo)
  | [] => some []
  | p :: rest =>
    if p.status = 200 then
      if p.hasNext then (get_repositories rest).map (fun r => p.data ++ r)
      else some p.data
    else none

/-- A parsed CSV file: the header row followed by the remaining rows, each a
list of cell strings. -/
structure Sheet where
  header : List String
  rows : List (List String)
  deriving Repr, DecidableEq

/-- The fixed field names of `write_sheet` (github.py:31). -/
def stdHeader : List String := ["full_name", "visibility", "delete"]

/-- `write_sheet` (github.py:28-42): one header row, then one row per
repository in input order, visibility rendered from the `private` flag and
the `delete` column always initialized to `"No"`. -/
def write_sheet (repos : List Repo) : Sheet :=
  { header := stdHeader
    rows := repos.map (fun r =>
      [r.full_name, if r.priv then "private" else "public", "No"]) }

/-- `csv.DictReader` row construction: pair each header field with the cell
at the same position, `none` standing for the `restval = None` filled in
when the row is shorter than the header.  Cells beyond the header's length
are dropped (they go to the `restkey` entry, which the program never
reads). -/
def rowPairs : List String → List String → List (String × Option String)
  | [], _ => []
  | h :: hs, [] => (h, none) :: rowPairs hs []
  | h :: hs, v :: vs => (h, some v) :: rowPairs hs vs

/-- `row.get(key)` on the dict `DictReader` builds for one row: the value
paired with the last occurrence of `key` in the header (later assignments to
a duplicated key overwrite earlier ones), `none` when the key is absent or
its cell is missing. -/
def dictGet (header row : List String) (key : String) : Option String :=
  (rowPairs header row).foldl (fun acc kv => if kv.1 = key then kv.2 else acc) none

/-- `(row.get(key) or "")` (github.py:53,55): both an absent key / `None`
value and an empty string collapse to `""`. -/
def getStr (header row : List String) (key : String) : String :=
  (dictGet header row key).getD ""

/-- The affirmative test of github.py:53-54:
`(row.get("delete") or "").strip().lower() in {"yes", "y", "true", "1"}`. -/
def affirmative (s : String) : Bool :=
  let flag := pyLower (pyStrip s)
  flag = "yes" || flag = "y" || flag = "true" || flag = "1"

/-- `load_deletion_list` (github.py:45-58).  `none` models a path at which
no file exists (`sheet_path.exists()` false): the result is `[]`.  Otherwise
rows are scanned in file order; a row contributes its stripped `full_name`
exactly when its `delete` field is affirmative and the stripped `full_name`
is non-empty. -/
def load_deletion_list (sheet : Option Sheet) : List String :=
  match sheet with
  | none => []
  | some sh =>
    sh.rows.filterMap (fun row =>
      if affirmative (getStr sh.header row "delete") then
        let full_name := pyStrip (getStr sh.header row "full_name")
        if full_name ≠ "" then some full_name else none
      else none)

/-- The body of one response of the deletion endpoint: `json` is `some j`
when `resp.json()` succeeds, and `text` is the raw body text used when it
does not (github.py:86-89). -/
structure DeleteResponse where
  status : Nat
  json : Option String
  text : String
  deriving Repr, DecidableEq

/-- The deletion endpoint: one response per `(owner, name)` pair. -/
def DeleteServer : Type := String → String → DeleteResponse

/-- The error detail printed on a non-204 response: the decoded JSON body
when `resp.json()` succeeds, the raw text otherwise (github.py:86-89). -/
inductive ErrBody where
  | json (s : String)
  | text (s : String)
  deriving Repr, DecidableEq

/-- Select the error detail from a response, as github.py:86-89 does. -/
def errBody (r : DeleteResponse) : ErrBody :=
  match r.json with
  | some j => ErrBody.json j
  | none => ErrBody.text r.text

/-- The per-item outcome reported by the deletion loop: `deleted` on status
204, `failed status body` on any other status, and `invalidName` for a
`full_name` lacking `"/"`, which is skipped locally (github.py:76-90). -/
inductive ItemOutcome where
  | deleted
  | invalidName
  | failed (status : Nat) (body : ErrBody)
  deriving Repr, DecidableEq

/-- `full_name.split("/", 1)`: the part before the first `/` and everything
after it. -/
def splitFull (s : String) : String × String := pySplit1 s

/-- One iteration of the deletion loop (github.py:76-90) for one
`full_name`: the reported outcome together with the number of HTTP DELETE
requests issued for this item (`0` on the local invalid-name skip, `1`
otherwise). -/
def processItem (server : DeleteServer) (full_name : String) : ItemOutcome × Nat :=
  if pyContains full_name '/' then
    let parts := splitFull full_name
    let resp := server parts.1 parts.2
    (if resp.status = 204 then ItemOutcome.deleted
     else ItemOutcome.failed resp.status (errBody resp), 1)
  else (ItemOutcome.invalidName, 0)

/-- The observable result of `delete_repositories`: returned early with
"Nothing marked for deletion", aborted at the confirmation gate, or executed
with one `(full_name, outcome, request count)` entry per targeted name in
order. -/
inductive DeleteRun where
  | nothingToDo
  | aborted
  | executed (items : List (String × ItemOutcome × Nat))
  deriving Repr, DecidableEq

/-- `delete_repositories` (github.py:61-90): empty list short-circuits;
otherwise the confirmation gate compares the stripped operator input against
the literal `"DELETE"` and aborts on any mismatch; on approval every name is
processed in order, each independently of the others. -/
def delete_repositories (full_names : List String) (confirm : String)
    (server : DeleteServer) : DeleteRun :=
  if full_names.isEmpty then DeleteRun.nothingToDo
  else if pyStrip confirm ≠ "DELETE" then DeleteRun.aborted
  else DeleteRun.executed (full_names.map (fun n => (n, processItem server n)))

/-- Total number of HTTP DELETE requests a run issued. -/
def runCalls : DeleteRun → Nat
  | DeleteRun.executed items => (items.map (fun it => it.2.2)).sum
  | _ => 0

/-- The `export` branch of `main` (github.py:113-117): on a listing failure
exit with code 1 and write nothing (`none`); on success write the sheet and
exit 0.  The first component is the file written (`none` = no write, so a
pre-existing sheet is untouched). -/
def export_main (pages : List PageResponse) : Option Sheet × Nat :=
  match get_repositories pages with
  | none => (none, 1)
  | some repos => (some (write_sheet repos), 0)

/-- The `apply` branch of `main` (github.py:118-120): parse the sheet, run
the gated deletion; the branch never calls `sys.exit`, so the exit code is
0. -/
def apply_main (sheet : Option Sheet) (confirm : String)
    (server : DeleteServer) : DeleteRun × Nat :=
  (delete_repositories (load_deletion_list sheet) confirm server, 0)

/-- A sheet row as `write_sheet` lays it out: `full_name`, `visibility`,
`delete`. -/
structure Row3 where
  fn : String
  vis : String
  del : String
  deriving Repr, DecidableEq

/-- Render a `Row3` as the literal CSV row. -/
def mkRow (t : Row3) : List String := [t.fn, t.vis, t.del]

/-! ## Helper lemmas -/

/-- The headers of the key/value pairs of a row dict are the header row. -/
lemma rowPairs_fst : ∀ (hs r : List String), (rowPairs hs r).map Prod.fst = hs
  | [], _ => rfl
  | _ :: hs, [] => by simp [rowPairs, rowPairs_fst hs []]
  | _ :: hs, _ :: vs => by simp [rowPairs, rowPairs_fst hs vs]

/-- The dict fold leaves the accumulator alone when no pair matches the
key. -/
lemma foldl_dict_nomatch {key : String} :
    ∀ (l : List (String × Option String)) (acc : Option String),
      (∀ kv ∈ l, kv.1 ≠ key) →
      l.foldl (fun acc kv => if kv.1 = key then kv.2 else acc) acc = acc
  | [], _, _ => rfl
  | kv :: l, acc, h => by
    rw [List.foldl_cons, if_neg (h kv (List.mem_cons_self _ _))]
    exact foldl_dict_nomatch l acc (fun x hx => h x (List.mem_cons_of_mem _ hx))

/-- A key absent from the header never resolves to a value. -/
lemma dictGet_not_mem (hs r : List String) (key : String) (hk : key ∉ hs) :
    dictGet hs r key = none := by
  apply foldl_dict_nomatch
  intro kv hkv he
  exact hk (he ▸ (rowPairs_fst hs r ▸ List.mem_map_of_mem Prod.fst hkv))

/-- On a standard-header row the `delete` field is the third cell. -/
lemma getStr_row_delete (t : Row3) : getStr stdHeader (mkRow t) "delete" = t.del := rfl

/-- On a standard-header row the `full_name` field is the first cell. -/
lemma getStr_row_fn (t : Row3) : getStr stdHeader (mkRow t) "full_name" = t.fn := rfl

/-- `load_deletion_list` on a standard-header sheet whose rows all carry a
non-empty stripped `full_name` is exactly: keep the affirmative rows, in
order, and return their stripped `full_name`s. -/
lemma load_filter (rows : List Row3) (hfn : ∀ t ∈ rows, pyStrip t.fn ≠ "") :
    load_deletion_list (some ⟨stdHeader, rows.map mkRow⟩) =
      (rows.filter (fun t => affirmative t.del)).map (fun t => pyStrip t.fn) := by
  induction rows with
  | nil => rfl
  | cons t ts ih =>
    have hne : pyStrip t.fn ≠ "" := hfn t (List.mem_cons_self _ _)
    have ihh := ih (fun x hx => hfn x (List.mem_cons_of_mem _ hx))
    simp only [load_deletion_list] at ihh
    simp only [load_deletion_list, List.map_cons, List.filterMap_cons, getStr_row_delete,
      getStr_row_fn, List.filter_cons]
    by_cases hd : affirmative t.del
    · simp [hd, hne]
      simpa using ihh
    · simp [hd]
      simpa using ihh

/-! ## Claim theorems: pagination (C2, C3) -/

/-- Claim C2: for a simulated multi-page listing whose pages all succeed and
are chained by "next" links, `get_repositories` returns exactly the
concatenation of every page's records up to and including the first page
without a "next" link, in page order with each page's records in original
order; pages after that one (`post`) are never consulted. -/
theorem pagination_complete (pre : List PageResponse) (p : PageResponse)
    (post : List PageResponse)
    (hpre : ∀ q ∈ pre, q.status = 200 ∧ q.hasNext = true)
    (hst : p.status = 200) (hnext : p.hasNext = false) :
    get_repositories (pre ++ p :: post) =
      some ((pre.map PageResponse.data).flatten ++ p.data) := by
  induction pre with
  | nil => simp [get_repositories, hst, hnext]
  | cons q qs ih =>
    have hq := hpre q (List.mem_cons_self _ _)
    have ihh := ih (fun x hx => hpre x (List.mem_cons_of_mem _ hx))
    simp [get_repositories, hq.1, hq.2, ihh]

/-- Witness for C2: two chained 200 pages followed by an ignored trailing
page yield the three records of the first two pages in order. -/
theorem pagination_complete_witness :
    get_repositories
        [⟨200, [⟨"o/a", false⟩, ⟨"o/b", true⟩], true⟩,
         ⟨200, [⟨"o/c", false⟩], false⟩,
         ⟨200, [⟨"o/zzz", false⟩], true⟩] =
      some [⟨"o/a", false⟩, ⟨"o/b", true⟩, ⟨"o/c", false⟩] := by
  have h := pagination_complete [⟨200, [⟨"o/a", false⟩, ⟨"o/b", true⟩], true⟩]
    ⟨200, [⟨"o/c", false⟩], false⟩ [⟨200, [⟨"o/zzz", false⟩], true⟩]
    (by decide) (by decide) (by decide)
  exact h.trans (by decide)

/-- Claim C3: a non-success status on any reached page makes
`get_repositories` return `None` (no partial list), and the `export` branch
of `main` then writes no sheet (the prior file is untouched) and exits with
code 1. -/
theorem listing_failure_aborts (pre : List PageResponse) (p : PageResponse)
    (post : List PageResponse)
    (hpre : ∀ q ∈ pre, q.status = 200 ∧ q.hasNext = true)
    (hst : p.status ≠ 200) :
    get_repositories (pre ++ p :: post) = none
    ∧ export_main (pre ++ p :: post) = (none, 1) := by
  have hnone : get_repositories (pre ++ p :: post) = none := by
    induction pre with
    | nil => simp [get_repositories, hst]
    | cons q qs ih =>
      have hq := hpre q (List.mem_cons_self _ _)
      have ihh := ih (fun x hx => hpre x (List.mem_cons_of_mem _ hx))
      simp [get_repositories, hq.1, hq.2, ihh]
  exact ⟨hnone, by simp [export_main, hnone]⟩

/-- Witness for C3: a 403 on the second page aborts the export with exit
code 1 and no write, even though the first page succeeded. -/
theorem listing_failure_aborts_witness :
    get_repositories
        [⟨200, [⟨"o/a", false⟩], true⟩, ⟨403, [], true⟩, ⟨200, [⟨"o/b", false⟩], false⟩] = none
    ∧ export_main
        [⟨200, [⟨"o/a", false⟩], true⟩, ⟨403, [], true⟩, ⟨200, [⟨"o/b", false⟩], false⟩] =
        (none, 1) :=
  listing_failure_aborts [⟨200, [⟨"o/a", false⟩], true⟩] ⟨403, [], true⟩
    [⟨200, [⟨"o/b", false⟩], false⟩] (by decide) (by decide)

/-! ## Claim theorems: confirmation gate and deletion loop (C1, C4, C6, C7, C10) -/

/-- Claim C1: with a non-empty deletion request, the run reaches the deletion
loop (state `Approved`) precisely when the stripped operator input is the
literal `"DELETE"`; every other input aborts: the result is `Aborted`, zero
HTTP DELETE requests are issued, and the `apply` branch still exits with
code 0 (a normal end, not an error). -/
theorem gate_exactness (sheet : Option Sheet) (input : String) (server : DeleteServer)
    (hne : load_deletion_list sheet ≠ []) :
    ((apply_main sheet input server).1 =
        DeleteRun.executed
          ((load_deletion_list sheet).map (fun n => (n, processItem server n)))
      ↔ pyStrip input = "DELETE")
    ∧ (pyStrip input ≠ "DELETE" →
        (apply_main sheet input server).1 = DeleteRun.aborted
        ∧ runCalls (apply_main sheet input server).1 = 0
        ∧ (apply_main sheet input server).2 = 0) := by
  have hempty : (load_deletion_list sheet).isEmpty = false := by
    simpa [List.isEmpty_iff] using hne
  by_cases hc : pyStrip input = "DELETE"
  · simp [apply_main, delete_repositories, hempty, hc]
  · simp [apply_main, delete_repositories, hempty, hc, runCalls]

/-- Witness for C1: a sheet targeting `o/r`, operator input `"delete"`
(lower-case): the gate aborts, no request is issued, exit code 0. -/
theorem gate_exactness_witness :
    (apply_main (some ⟨stdHeader, [["o/r", "public", "yes"]]⟩) "delete"
        (fun _ _ => ⟨204, none, ""⟩)).1 = DeleteRun.aborted
    ∧ runCalls (apply_main (some ⟨stdHeader, [["o/r", "public", "yes"]]⟩) "delete"
        (fun _ _ => ⟨204, none, ""⟩)).1 = 0
    ∧ (apply_main (some ⟨stdHeader, [["o/r", "public", "yes"]]⟩) "delete"
        (fun _ _ => ⟨204, none, ""⟩)).2 = 0 :=
  (gate_exactness (some ⟨stdHeader, [["o/r", "public", "yes"]]⟩) "delete"
    (fun _ _ => ⟨204, none, ""⟩) (by decide)).2 (by decide)

/-- Claim C4: in an approved batch, the trace of the deletion loop is the
map of an item-local function over the targeted names: every name is
attempted exactly once, in sheet order, and the entry at any position is
determined by that name and the server alone, so one item's failure cannot
abort, skip, or alter the handling of any other item.  The second conjunct
makes the isolation explicit for each decomposition of the batch. -/
theorem per_item_isolation (full_names : List String) (input : String)
    (server : DeleteServer)
    (hne : full_names ≠ []) (happ : pyStrip input = "DELETE") :
    delete_repositories full_names input server =
      DeleteRun.executed (full_names.map (fun n => (n, processItem server n)))
    ∧ ∀ (pre : List String) (n : String) (post : List String),
        full_names = pre ++ n :: post →
        delete_repositories full_names input server =
          DeleteRun.executed
            (pre.map (fun m => (m, processItem server m))
              ++ (n, processItem server n)
                :: post.map (fun m => (m, processItem server m))) := by
  have hempty : full_names.isEmpty = false := by simpa [List.isEmpty_iff] using hne
  constructor
  · simp [delete_repositories, hempty, happ]
  · intro pre n post hdec
    subst hdec
    simp [delete_repositories, hempty, happ]

/-- Witness for C4: two valid names where the server rejects the second with
a 404; both are attempted, the first reports `Deleted`, the second reports
`Failed`, in order. -/
theorem per_item_isolation_witness :
    delete_repositories ["o/a", "o/b"] "DELETE"
        (fun _ name => if name = "b" then ⟨404, some "missing", "missing"⟩
          else ⟨204, none, ""⟩) =
      DeleteRun.executed
        (["o/a", "o/b"].map (fun n =>
          (n, processItem
            (fun _ name => if name = "b" then ⟨404, some "missing", "missing"⟩
              else ⟨204, none, ""⟩) n))) :=
  (per_item_isolation ["o/a", "o/b"] "DELETE"
    (fun _ name => if name = "b" then ⟨404, some "missing", "missing"⟩
      else ⟨204, none, ""⟩) (by decide) (by decide)).1

/-- Claim C6: a targeted name without the `/` separator is resolved without
consulting the deletion endpoint at all — its entry is `(invalidName, 0)`
for every possible server — and in an approved batch the surrounding items
before and after it are processed exactly as they otherwise would be. -/
theorem invalid_name_local (pre : List String) (n : String) (post : List String)
    (input : String) (server : DeleteServer)
    (happ : pyStrip input = "DELETE") (hn : pyContains n '/' = false) :
    (∀ s2 : DeleteServer, processItem s2 n = (ItemOutcome.invalidName, 0))
    ∧ delete_repositories (pre ++ n :: post) input server =
        DeleteRun.executed
          (pre.map (fun m => (m, processItem server m))
            ++ (n, (ItemOutcome.invalidName, 0))
              :: post.map (fun m => (m, processItem server m))) := by
  have hitem : ∀ s2 : DeleteServer, processItem s2 n = (ItemOutcome.invalidName, 0) := by
    intro s2
    simp [processItem, hn]
  have hempty : (pre ++ n :: post).isEmpty = false := by
    simp [List.isEmpty_iff]
  refine ⟨hitem, ?_⟩
  simp [delete_repositories, hempty, happ, hitem server]

/-- Witness for C6: the malformed name `badname` between two valid names
yields `(invalidName, 0)` while both neighbours are still attempted. -/
theorem invalid_name_local_witness :
    (∀ s2 : DeleteServer, processItem s2 "badname" = (ItemOutcome.invalidName, 0))
    ∧ delete_repositories ["o/a", "badname", "o/c"] "DELETE"
        (fun _ _ => ⟨204, none, ""⟩) =
      DeleteRun.executed
        (["o/a"].map (fun m => (m, processItem (fun _ _ => ⟨204, none, ""⟩) m))
          ++ ("badname", (ItemOutcome.invalidName, 0))
            :: ["o/c"].map (fun m => (m, processItem (fun _ _ => ⟨204, none, ""⟩) m))) :=
  invalid_name_local ["o/a"] "badname" ["o/c"] "DELETE"
    (fun _ _ => ⟨204, none, ""⟩) (by decide) (by decide)

/-- Claim C7: a path at which no sheet file exists parses to the empty
deletion request rather than an error, and the `apply` branch then reports
nothing to do and exits 0 whatever the operator input would have been — the
result does not depend on `input`, so no confirmation prompt is consulted. -/
theorem missing_sheet_empty :
    load_deletion_list none = []
    ∧ ∀ (input : String) (server : DeleteServer),
        apply_main none input server = (DeleteRun.nothingToDo, 0) :=
  ⟨rfl, fun _ _ => rfl⟩

/-- Claim C10: for a well-formed targeted name, the reported outcome is
`deleted` exactly when the endpoint answers status 204; any other status —
including other 2xx statuses such as 200 — is reported as `failed` carrying
that status and the body, decoded as JSON when `resp.json()` succeeds and as
raw text otherwise. -/
theorem delete_status_exact (server : DeleteServer) (n : String)
    (hn : pyContains n '/' = true) :
    ((processItem server n).1 = ItemOutcome.deleted
      ↔ (server (splitFull n).1 (splitFull n).2).status = 204)
    ∧ ((server (splitFull n).1 (splitFull n).2).status = 204 →
        processItem server n = (ItemOutcome.deleted, 1))
    ∧ ((server (splitFull n).1 (splitFull n).2).status ≠ 204 →
        processItem server n =
          (ItemOutcome.failed (server (splitFull n).1 (splitFull n).2).status
            (errBody (server (splitFull n).1 (splitFull n).2)), 1))
    ∧ (∀ r : DeleteResponse, r.json = none → errBody r = ErrBody.text r.text)
    ∧ (∀ (r : DeleteResponse) (j : String), r.json = some j → errBody r = ErrBody.json j) := by
  refine ⟨?_, ?_, ?_, ?_, ?_⟩
  · by_cases hs : (server (splitFull n).1 (splitFull n).2).status = 204 <;>
      simp [processItem, hn, hs]
  · intro hs
    simp [processItem, hn, hs]
  · intro hs
    simp [processItem, hn, hs]
  · intro r hr
    simp [errBody, hr]
  · intro r j hr
    simp [errBody, hr]

/-- Witness for C10: a 200 response with a JSON body on `o/r` is reported as
`failed 200` with the decoded JSON detail, not as `deleted`. -/
theorem delete_status_exact_witness :
    processItem (fun _ _ => ⟨200, some "ok-but-not-deleted", "raw"⟩) "o/r" =
      (ItemOutcome.failed 200 (ErrBody.json "ok-but-not-deleted"), 1) :=
  (((delete_status_exact (fun _ _ => ⟨200, some "ok-but-not-deleted", "raw"⟩) "o/r"
    (by decide)).2.2.1 (by decide)).trans (by decide))

/-! ## Claim theorems: sheet parsing (C5, C8, C9) -/

/-- Claim C5: on a standard-header sheet whose rows carry a non-empty
`full_name`, `load_deletion_list` returns exactly the `full_name`s of the
rows whose `delete` field is affirmative after stripping and lower-casing
(`yes`, `y`, `true`, `1` in any case), in file row order; every other
`delete` value leaves its row out. -/
theorem marks_roundtrip (rows : List Row3)
    (hfn : ∀ t ∈ rows, pyStrip t.fn ≠ "") :
    load_deletion_list (some ⟨stdHeader, rows.map mkRow⟩) =
      (rows.filter (fun t => affirmative t.del)).map (fun t => pyStrip t.fn) :=
  load_filter rows hfn

/-- Witness for C5: marks `Yes`, `yes`, `Y`, `TRUE`, `1` select their rows;
`no`, empty, and `maybe` do not; order is file order. -/
theorem marks_roundtrip_witness :
    load_deletion_list
        (some ⟨stdHeader,
          ([⟨"o/a", "public", "Yes"⟩, ⟨"o/b", "private", "no"⟩,
            ⟨"o/c", "public", "yes"⟩, ⟨"o/d", "public", ""⟩,
            ⟨"o/e", "private", "Y"⟩, ⟨"o/f", "public", "maybe"⟩,
            ⟨"o/g", "public", "TRUE"⟩, ⟨"o/h", "private", "1"⟩] : List Row3).map mkRow⟩) =
      ["o/a", "o/c", "o/e", "o/g", "o/h"] :=
  ((marks_roundtrip
    [⟨"o/a", "public", "Yes"⟩, ⟨"o/b", "private", "no"⟩,
     ⟨"o/c", "public", "yes"⟩, ⟨"o/d", "public", ""⟩,
     ⟨"o/e", "private", "Y"⟩, ⟨"o/f", "public", "maybe"⟩,
     ⟨"o/g", "public", "TRUE"⟩, ⟨"o/h", "private", "1"⟩]
    (by decide)).trans (by decide))

/-- Counterexample to C8 as stated: in a sheet whose two rows both name
`o/r`, first `yes` then `no`, the name IS in the deletion request although
the final duplicate row's `delete` value is not affirmative — parsing is
row-by-row with no de-duplication, so the last row does not win. -/
theorem dup_last_wins_cx :
    load_deletion_list
        (some ⟨stdHeader, [["o/r", "public", "yes"], ["o/r", "public", "no"]]⟩) = ["o/r"]
    ∧ affirmative "no" = false := by
  decide

/-- Claim C8 as amended: rows are processed independently with no
de-duplication, so a duplicated `full_name` is in the deletion request iff
SOME row with that name (not specifically the last) has an affirmative
`delete` value; each affirmative row contributes its own entry. -/
theorem dup_any_affirmative (rows : List Row3) (name : String)
    (hfn : ∀ t ∈ rows, pyStrip t.fn ≠ "") :
    name ∈ load_deletion_list (some ⟨stdHeader, rows.map mkRow⟩)
      ↔ ∃ t ∈ rows, affirmative t.del = true ∧ pyStrip t.fn = name := by
  rw [load_filter rows hfn]
  simp [List.mem_map, List.mem_filter]
  constructor
  · rintro ⟨t, ⟨ht, hd⟩, he⟩
    exact ⟨t, ht, hd, he⟩
  · rintro ⟨t, ht, hd, he⟩
    exact ⟨t, ⟨ht, hd⟩, he⟩

/-- Witness for C8 (amended): with duplicate rows `yes` then `no` for
`o/r`, membership holds because of the first row. -/
theorem dup_any_affirmative_witness :
    "o/r" ∈ load_deletion_list
      (some ⟨stdHeader,
        ([⟨"o/r", "public", "yes"⟩, ⟨"o/r", "public", "no"⟩] : List Row3).map mkRow⟩) :=
  (dup_any_affirmative [⟨"o/r", "public", "yes"⟩, ⟨"o/r", "public", "no"⟩] "o/r"
    (by decide)).mpr ⟨⟨"o/r", "public", "yes"⟩, by decide, by decide, by decide⟩

/-- Counterexample to C9 as stated: a sheet that exists but has a foreign
header (`a,b,c`) is NOT treated as a fatal error — `apply` parses it
leniently to an empty request, reports nothing to do and exits 0, exactly
like the absent-file case it was claimed to be distinct from. -/
theorem sheet_unreadable_cx :
    apply_main (some ⟨["a", "b", "c"], [["x", "y", "z"]]⟩) "DELETE"
        (fun _ _ => ⟨204, none, ""⟩) = (DeleteRun.nothingToDo, 0)
    ∧ apply_main none "DELETE" (fun _ _ => ⟨204, none, ""⟩) =
        (DeleteRun.nothingToDo, 0) :=
  ⟨rfl, rfl⟩

/-- Claim C9 as amended: a sheet whose header lacks a `delete` column is
parsed leniently, never fatally: every row's `delete` lookup yields the
empty (non-affirmative) default, the deletion request is empty, and `apply`
ends as "nothing to do" with exit code 0 — indistinguishable from the
absent-file case. -/
theorem sheet_lenient (sh : Sheet) (input : String) (server : DeleteServer)
    (hd : "delete" ∉ sh.header) :
    load_deletion_list (some sh) = []
    ∧ apply_main (some sh) input server = (DeleteRun.nothingToDo, 0) := by
  have hload : load_deletion_list (some sh) = [] := by
    simp only [load_deletion_list]
    rw [List.filterMap_eq_nil_iff]
    intro row hrow
    rw [if_neg]
    rw [getStr, dictGet_not_mem sh.header row "delete" hd]
    decide
  refine ⟨hload, ?_⟩
  simp [apply_main, hload, delete_repositories]

/-- Witness for C9 (amended): the foreign-header sheet from the
counterexample satisfies the amended statement. -/
theorem sheet_lenient_witness :
    load_deletion_list (some ⟨["a", "b", "c"], [["x", "y", "z"]]⟩) = []
    ∧ apply_main (some ⟨["a", "b", "c"], [["x", "y", "z"]]⟩) "DELETE"
        (fun _ _ => ⟨204, none, ""⟩) = (DeleteRun.nothingToDo, 0) :=
  sheet_lenient ⟨["a", "b", "c"], [["x", "y", "z"]]⟩ "DELETE"
    (fun _ _ => ⟨204, none, ""⟩) (by decide)

end Grepodel
